import Mathlib

/-!
Verification development for the `math-shell` calculator.

The repository contains several near-duplicate front ends around one
expression engine:

* `src/index.mjs` — readline front end; its `OPERATORS` object literal
  defines the key `'-'` twice (binary subtraction, then unary negation),
  so the later binding overwrites the former.
* `src/unnamed/part_000` (second embedded file, the vorpal front end) —
  the variant with `$`-variable substitution, an `ans` variable, a
  `markUnaryMinus` tagging pass, a distinct `'-unary'` operator key and
  the full function table `sin cos tan abs log exp sqrt`.

This file embeds both evaluators.  Numbers: the engine computes with
decimal.js `Decimal` values.  We model a `Decimal` as either NaN or an
exact rational (`Dec` below).  decimal.js rounds the results of
`div`, `pow`, and the transcendental functions to the configured
precision (20 significant digits by default); the model uses exact
rational arithmetic, which agrees with the library whenever the result
is exactly representable within that precision — which is the case for
every concrete value any theorem below computes.  decimal.js `±Infinity`
values are not modelled: on the modelled paths they can arise only from
division by zero (guarded by an explicit zero test before the division)
or from exponent overflow (out of scope); where the library would
produce an `Infinity` the model returns NaN, and no theorem depends on
such a point.
-/

/-- Model of a decimal.js `Decimal` value: NaN or a finite value,
the finite value taken as an exact rational (see the file comment for
the rounding caveat). -/
inductive Dec where
  | nan
  | num (q : ℚ)
deriving DecidableEq

/-- `Decimal.prototype.isZero`: true exactly on a finite zero
(`NaN.isZero()` is `false` in decimal.js). -/
def Dec.isZero : Dec → Bool
  | .nan => false
  | .num q => q = 0

/-- `a.add(b)`: NaN propagates, finite values add exactly. -/
def Dec.add : Dec → Dec → Dec
  | .num a, .num b => .num (a + b)
  | _, _ => .nan

/-- `a.sub(b)`. -/
def Dec.sub : Dec → Dec → Dec
  | .num a, .num b => .num (a - b)
  | _, _ => .nan

/-- `a.mul(b)`. -/
def Dec.mul : Dec → Dec → Dec
  | .num a, .num b => .num (a * b)
  | _, _ => .nan

/-- `a.neg()`. -/
def Dec.neg : Dec → Dec
  | .num a => .num (-a)
  | .nan => .nan

/-- `a.div(b)`.  In the engine this is only reached with `b` nonzero
(an `isZero` test precedes the call); the `b = 0` branch, where the
library would return `±Infinity`, is mapped to NaN and is unreachable
on every modelled path. -/
def Dec.div : Dec → Dec → Dec
  | .num a, .num b => if b = 0 then .nan else .num (a / b)
  | _, _ => .nan

/-- Truncation toward zero of a rational, as used by decimal.js
`mod` (default modulo mode 1, remainder with the sign of the dividend,
the same convention as JavaScript `%`). -/
def truncRat (q : ℚ) : ℤ :=
  if q < 0 then -⌊-q⌋ else ⌊q⌋

/-- `a.mod(b)`: truncated remainder.  Only reached with `b` nonzero
(guarded by an `isZero` test); the `b = 0` branch, where the library
returns NaN anyway, also yields NaN here. -/
def Dec.mod : Dec → Dec → Dec
  | .num a, .num b =>
      if b = 0 then .nan else .num (a - b * (truncRat (a / b) : ℚ))
  | _, _ => .nan

/-- The transcendental parts of the decimal.js kernel that the engine
calls.  Each field is a function on `Dec`; keeping them as parameters
makes every general theorem hold for the actual library functions,
whose 20-digit outputs we do not reimplement.  `powApprox` is the
branch of `a.pow(b)` for a non-integer exponent with non-negative
base. -/
structure Kernel where
  sin : Dec → Dec
  cos : Dec → Dec
  tan : Dec → Dec
  abs : Dec → Dec
  log : Dec → Dec
  exp : Dec → Dec
  sqrt : Dec → Dec
  powApprox : ℚ → ℚ → Dec

/-- `a.pow(b)`: exact for integer exponents (the library rounds to its
configured precision; exact whenever the result fits in 20 significant
digits, as in every theorem below); NaN for a negative base with a
non-integer exponent (decimal.js behaviour); the kernel's rounded value
for a non-negative base with non-integer exponent.  `0 ** n` with `n`
a negative integer is `Infinity` in the library, mapped to NaN here
(unreachable in every theorem). -/
def decPow (K : Kernel) : Dec → Dec → Dec
  | .num a, .num b =>
      if b.den = 1 then
        if 0 ≤ b.num then .num (a ^ b.num.toNat)
        else if a = 0 then .nan
        else .num (a ^ b.num)
      else if a < 0 then .nan
      else K.powApprox a b
  | _, _ => .nan

/-- The value of `Decimal.acos(-1)` at the default precision of 20
significant digits: π rounded to 20 digits. -/
def decimalPi : ℚ := 31415926535897932385 / 10000000000000000000

/-- The error taxonomy of the engine.  Each constructor corresponds to
one `throw` site in the source; the carried strings are the variable
parts of the thrown messages. -/
inductive EvalErr where
  | syntaxError (msg : String)
  | undefinedVariable (name : String)
  | unsupportedFunction (name : String)
  | unsupportedType (nodeType : String)
  | divisionByZero
  | moduloByZero
  | numeric (opName : String)
  | invalidArgument
  | notAFunction (op : String)
deriving DecidableEq

/-- Expression AST, mirroring the esprima (ESTree) node kinds the
evaluator dispatches on.  `unary` carries the `isUnaryMinus` tag that
`markUnaryMinus` sets (absent, i.e. `false`, on freshly parsed nodes).
esprima's `CallExpression` carries an argument list of which the
evaluator only ever reads `arguments[0]`; the modelled grammar produces
exactly one argument, carried directly. -/
inductive Node where
  | lit (v : ℚ)
  | ident (name : String)
  | binary (op : String) (l r : Node)
  | unary (op : String) (isUnaryMinus : Bool) (arg : Node)
  | call (callee : String) (arg : Node)
deriving DecidableEq

/-- `new Decimal(undefined)`, which decimal.js answers with
`[DecimalError] Invalid argument` — this is what a binary operator
entry does when called with a single argument. -/
def requireArg : Option Dec → Except EvalErr Dec
  | some d => .ok d
  | none => .error .invalidArgument

/-- `MathShell.prototype.OPERATORS` of the vorpal variant
(`src/unnamed/part_000` lines 553–567): binary `+ - * / % **` plus the
distinct `'-unary'` negation entry.  Each entry is a JavaScript
function of two parameters; calling one with a single argument passes
`undefined` for the second (`requireArg` above).  `/` and `%` test
`b.isZero()` and throw before any arithmetic. -/
def OPERATORS (K : Kernel) : String → Option (Dec → Option Dec → Except EvalErr Dec)
  | "+" => some fun a b? => do .ok (a.add (← requireArg b?))
  | "-" => some fun a b? => do .ok (a.sub (← requireArg b?))
  | "*" => some fun a b? => do .ok (a.mul (← requireArg b?))
  | "/" => some fun a b? => do
      let b ← requireArg b?
      if b.isZero then .error .divisionByZero else .ok (a.div b)
  | "**" => some fun a b? => do .ok (decPow K a (← requireArg b?))
  | "%" => some fun a b? => do
      let b ← requireArg b?
      if b.isZero then .error .moduloByZero else .ok (a.mod b)
  | "-unary" => some fun a _ => .ok a.neg
  | _ => none

/-- `toDeg` of the vorpal variant (`src/unnamed/part_000` lines
569–574): in degree mode multiply by `Decimal.acos(-1)` and divide by
180, all in Decimal arithmetic; otherwise return the argument
unchanged.  The angle mode is the raw mode string of the session. -/
def toDeg (arg : Dec) (mode : String) : Dec :=
  if mode = "deg" then ((Dec.num decimalPi).mul arg).div (Dec.num 180)
  else arg

/-- `MathShell.prototype.FUNCTIONS` of the vorpal variant
(`src/unnamed/part_000` lines 576–584): `sin cos tan` convert their
argument with `toDeg` first; `abs log exp sqrt` apply the kernel
function directly to the raw argument (their JavaScript definitions do
not even name the mode parameter, except `abs` which names and ignores
it). -/
def FUNCTIONS (K : Kernel) : String → Option (Dec → String → Dec)
  | "sin" => some fun a mode => K.sin (toDeg a mode)
  | "cos" => some fun a mode => K.cos (toDeg a mode)
  | "tan" => some fun a mode => K.tan (toDeg a mode)
  | "abs" => some fun a _ => K.abs a
  | "log" => some fun a _ => K.log a
  | "exp" => some fun a _ => K.exp a
  | "sqrt" => some fun a _ => K.sqrt a
  | _ => none

/-- The NaN check the evaluator performs on every computed node result:
`if (result.isNaN()) throw ... operator "${node.operator || 'unknown'}"`.
`name` is the node's `operator` property, or `"unknown"` for node kinds
without one (literals and call expressions). -/
def checkNaN (name : String) (d : Dec) : Except EvalErr Dec :=
  if d = .nan then .error (.numeric name) else .ok d

/-- Operator table lookup followed by invocation, as in
`self.OPERATORS[node.operator](...)`: a missing key would make the
call a TypeError (`notAFunction`) — unreachable from the modelled
grammar, whose operators all have entries. -/
def applyOperator (K : Kernel) (op : String) (a : Dec) (b? : Option Dec) :
    Except EvalErr Dec :=
  match OPERATORS K op with
  | some f => f a b?
  | none => .error (.notAFunction op)

/-- `evaluateNode` of the vorpal variant (`src/unnamed/part_000` lines
368–398).  Literal → `new Decimal(node.value)`; BinaryExpression →
operator entry applied to both recursively evaluated operands;
UnaryExpression → the `'-unary'` entry if the node is tagged
`isUnaryMinus`, otherwise the entry for `node.operator` called with the
single evaluated operand (second parameter `undefined`);
CallExpression → function table lookup (before argument evaluation),
`Unsupported function` if absent; any other node kind →
`Unsupported type`.  Every computed result then passes the NaN
check. -/
def evaluateNode (K : Kernel) (mode : String) : Node → Except EvalErr Dec
  | .lit v => checkNaN "unknown" (.num v)
  | .ident _ => .error (.unsupportedType "Identifier")
  | .binary op l r => do
      let a ← evaluateNode K mode l
      let b ← evaluateNode K mode r
      let result ← applyOperator K op a (some b)
      checkNaN op result
  | .unary op tagged arg => do
      let a ← evaluateNode K mode arg
      let result ← applyOperator K (if tagged then "-unary" else op) a none
      checkNaN op result
  | .call f arg =>
      match FUNCTIONS K f with
      | some fn => do
          let a ← evaluateNode K mode arg
          checkNaN "unknown" (fn a mode)
      | none => .error (.unsupportedFunction f)

/-- `markUnaryMinus` (`src/unnamed/part_000` lines 356–363): recurses
into the two children of a `BinaryExpression`; tags a `UnaryExpression`
whose operator is `-` (without recursing into its argument); leaves
every other node untouched. -/
def markUnaryMinus : Node → Node
  | .binary op l r => .binary op (markUnaryMinus l) (markUnaryMinus r)
  | .unary op tagged arg =>
      if op = "-" then .unary op true arg else .unary op tagged arg
  | n => n

/-- `MathShell.prototype.OPERATORS` of `src/index.mjs` (lines
197–215).  The object literal spells the key `'-'` twice — once as
binary subtraction, once as unary negation — and in JavaScript the
later binding wins, so the table's `'-'` entry is `(a) => a.neg()`,
which ignores any second argument. -/
def OPERATORSIndex (K : Kernel) : String → Option (Dec → Option Dec → Except EvalErr Dec)
  | "+" => some fun a b? => do .ok (a.add (← requireArg b?))
  | "-" => some fun a _ => .ok a.neg
  | "*" => some fun a b? => do .ok (a.mul (← requireArg b?))
  | "/" => some fun a b? => do
      let b ← requireArg b?
      if b.isZero then .error .divisionByZero else .ok (a.div b)
  | "**" => some fun a b? => do .ok (decPow K a (← requireArg b?))
  | "%" => some fun a b? => do
      let b ← requireArg b?
      if b.isZero then .error .moduloByZero else .ok (a.mod b)
  | _ => none

/-- Operator dispatch for the `index.mjs` variant. -/
def applyOperatorIndex (K : Kernel) (op : String) (a : Dec) (b? : Option Dec) :
    Except EvalErr Dec :=
  match OPERATORSIndex K op with
  | some f => f a b?
  | none => .error (.notAFunction op)

/-- `MathShell.prototype.FUNCTIONS` of `src/index.mjs` (lines
217–221): only `sin cos tan`, applied to the already-converted
argument. -/
def FUNCTIONSIndex (K : Kernel) : String → Option (Dec → Dec)
  | "sin" => some K.sin
  | "cos" => some K.cos
  | "tan" => some K.tan
  | _ => none

/-- `evaluateNode` of `src/index.mjs` (lines 34–69).  No unary-minus
tagging exists in this variant: a `UnaryExpression` applies the table
entry for its operator to the single operand.  The degree-to-radian
conversion `Decimal.acos(-1).mul(arg).div(180)` is inlined in the
CallExpression case and applied to the argument of every table
function when the session mode is `'deg'`. -/
def evaluateNodeIndex (K : Kernel) (mode : String) : Node → Except EvalErr Dec
  | .lit v => checkNaN "unknown" (.num v)
  | .ident _ => .error (.unsupportedType "Identifier")
  | .binary op l r => do
      let a ← evaluateNodeIndex K mode l
      let b ← evaluateNodeIndex K mode r
      let result ← applyOperatorIndex K op a (some b)
      checkNaN op result
  | .unary op _ arg => do
      let a ← evaluateNodeIndex K mode arg
      let result ← applyOperatorIndex K op a none
      checkNaN op result
  | .call f arg =>
      match FUNCTIONSIndex K f with
      | some fn => do
          let a ← evaluateNodeIndex K mode arg
          let conv := if mode = "deg"
            then ((Dec.num decimalPi).mul a).div (Dec.num 180) else a
          checkNaN "unknown" (fn conv)
      | none => .error (.unsupportedFunction f)

/-- Concrete kernel instance used in closed statements.  The only
decimal.js facts any theorem relies on are that the square root of a
negative number is NaN and that every kernel function maps NaN to NaN.
`abs` is the exact absolute value (which decimal.js computes exactly);
`log` of a negative number is NaN.  At the remaining arguments the
transcendental functions return the rounded transcendental value in
the library; no theorem inspects those points, and this instance
returns its argument there. -/
def stdKernel : Kernel where
  sin := fun d => match d with | .nan => .nan | .num q => .num q
  cos := fun d => match d with | .nan => .nan | .num q => .num q
  tan := fun d => match d with | .nan => .nan | .num q => .num q
  abs := fun d => match d with | .nan => .nan | .num q => .num |q|
  log := fun d => match d with
    | .nan => .nan
    | .num q => if q < 0 then .nan else .num q
  exp := fun d => match d with | .nan => .nan | .num q => .num q
  sqrt := fun d => match d with
    | .nan => .nan
    | .num q => if q < 0 then .nan else .num q
  powApprox := fun a _ => .num a

/-! ### Native-number rounding of literals

esprima stores a numeric literal's value on the AST as a native
JavaScript number, i.e. an IEEE-754 binary64 double: the literal text
is rounded to 53 significant bits (round to nearest, ties to even)
before `new Decimal(node.value)` ever sees it.  decimal.js then
converts the number through its decimal string representation
(`v.toString()`, the shortest round-trip decimal), which denotes the
double exactly for every integer of magnitude at most `2 ^ 53` — in
particular for every literal any theorem below evaluates — so the
model identifies the constructed `Decimal` with the double's exact
value. -/

/-- Fuel-driven base-2 logarithm on naturals (`natLog2 n` is `⌊log₂ n⌋`
for `n ≥ 1`); fuelled so that it reduces definitionally. -/
def log2Fuel : ℕ → ℕ → ℕ
  | 0, _ => 0
  | fuel + 1, n => if n ≤ 1 then 0 else log2Fuel fuel (n / 2) + 1

/-- `⌊log₂ n⌋` for `n ≥ 1` (0 at 0). -/
def natLog2 (n : ℕ) : ℕ := log2Fuel n n

/-- Integer powers of two as rationals. -/
def pow2Q (e : ℤ) : ℚ :=
  if 0 ≤ e then ((2 ^ e.toNat : ℕ) : ℚ) else 1 / ((2 ^ (-e).toNat : ℕ) : ℚ)

/-- `⌊log₂ q⌋` for a positive rational. -/
def floorLog2 (q : ℚ) : ℤ :=
  let c : ℤ := (natLog2 q.num.natAbs : ℤ) - (natLog2 q.den : ℤ)
  if pow2Q c ≤ q then c else c - 1

/-- Round a rational to the nearest integer, ties to even. -/
def roundHalfEven (r : ℚ) : ℤ :=
  let f := ⌊r⌋
  let frac := r - (f : ℚ)
  if frac < 1 / 2 then f
  else if 1 / 2 < frac then f + 1
  else if f % 2 = 0 then f else f + 1

/-- Round a positive rational to 53 significant bits, round to nearest,
ties to even: the value of the IEEE-754 double nearest to the literal
(subnormal and overflow ranges are out of scope for the literals
considered). -/
def doubleRoundPos (q : ℚ) : ℚ :=
  let e : ℤ := floorLog2 q - 52
  let scaled := q * pow2Q (-e)
  (roundHalfEven scaled : ℚ) * pow2Q e

/-- The value of the native double a numeric literal is parsed to. -/
def doubleRound (q : ℚ) : ℚ :=
  if q = 0 then 0
  else if q < 0 then -doubleRoundPos (-q)
  else doubleRoundPos q

/-! ### Tokenizer and parser

The engine hands the (substituted) expression text to
`esprima.parseScript` and takes `body[0].expression`.  esprima
implements the ECMAScript grammar; the model below implements that
grammar restricted to the constructs the shell's expressions use:
decimal numeric literals (`digits` or `digits.digits`), identifiers,
the binary operators `+ - * / % **` with the ECMAScript precedence
(`**` binds tightest and is right-associative, and its left operand
must not be a unary expression: `-3 ** 2` is a SyntaxError), unary
minus, parenthesised grouping, and single-argument calls
`name(argument)`.  Anything else is a syntax error, as the real parser
would reject it or produce a node the evaluator rejects. -/

/-- Token stream element. -/
inductive Tok where
  | num (v : ℚ)
  | id (s : String)
  | sym (s : String)
deriving DecidableEq

/-- Numeric value of a digit list (most significant first). -/
def digitsVal : List Char → ℕ
  | [] => 0
  | c :: cs => (c.toNat - 48) * 10 ^ cs.length + digitsVal cs

/-- Exact rational value of an `intDigits.fracDigits` literal. -/
def ratOfDigits (intDigits fracDigits : List Char) : ℚ :=
  (digitsVal intDigits : ℚ) + (digitsVal fracDigits : ℚ) / (10 ^ fracDigits.length : ℕ)

/-- Identifier start character (`[A-Za-z_$]` in ECMAScript; by the time
the parser runs, `$` sigils have been substituted away, and the model
keeps to `[A-Za-z_]`). -/
def isIdentStart (c : Char) : Bool := c.isAlpha || c = '_'

/-- Identifier continuation character. -/
def isIdentChar (c : Char) : Bool := c.isAlphanum || c = '_'

/-- Tokenizer; fuelled on the input length so it reduces
definitionally.  Each step consumes at least one character. -/
def tokenize : ℕ → List Char → Except EvalErr (List Tok)
  | 0, _ => .error (.syntaxError "tokenizer fuel exhausted")
  | _ + 1, [] => .ok []
  | fuel + 1, c :: cs =>
    if c = ' ' then tokenize fuel cs
    else if c.isDigit then
      let intDigits := (c :: cs).takeWhile Char.isDigit
      let rest := (c :: cs).dropWhile Char.isDigit
      match rest with
      | '.' :: cs2 =>
          let fracDigits := cs2.takeWhile Char.isDigit
          if fracDigits.isEmpty then .error (.syntaxError "unexpected token .")
          else do
            let ts ← tokenize fuel (cs2.dropWhile Char.isDigit)
            .ok (.num (ratOfDigits intDigits fracDigits) :: ts)
      | _ => do
          let ts ← tokenize fuel rest
          .ok (.num (ratOfDigits intDigits []) :: ts)
    else if isIdentStart c then do
      let name := (c :: cs).takeWhile isIdentChar
      let ts ← tokenize fuel ((c :: cs).dropWhile isIdentChar)
      .ok (.id (String.mk name) :: ts)
    else if c = '*' then
      match cs with
      | '*' :: cs2 => do
          let ts ← tokenize fuel cs2
          .ok (.sym "**" :: ts)
      | _ => do
          let ts ← tokenize fuel cs
          .ok (.sym "*" :: ts)
    else if c = '+' ∨ c = '-' ∨ c = '/' ∨ c = '%' ∨ c = '(' ∨ c = ')' then do
      let ts ← tokenize fuel cs
      .ok (.sym (String.mk [c]) :: ts)
    else .error (.syntaxError "unexpected character")

/-- Which grammar production `parseM` is working on; the loop states
carry the already-parsed left operand of a left-associative chain. -/
inductive ParseMode where
  | add
  | addLoop (acc : Node)
  | mul
  | mulLoop (acc : Node)
  | expo
  | unaryM
  | primary
deriving DecidableEq

/-- Recursive-descent parser over the token stream, implementing the
ECMAScript expression grammar for the modelled subset (fuelled so it
reduces definitionally):
`Add := Mul (('+'|'-') Mul)*`,
`Mul := Expo (('*'|'/'|'%') Expo)*`,
`Expo := Unary (not followed by '**') | Primary '**' Expo`,
`Unary := '-' Unary | Primary`,
`Primary := number | name '(' Add ')' | name | '(' Add ')'`.
Numeric literals are stored on the node after native-double rounding
(`doubleRound`), exactly as esprima stores a native number in
`node.value`. -/
def parseM : ℕ → ParseMode → List Tok → Except EvalErr (Node × List Tok)
  | 0, _, _ => .error (.syntaxError "parser fuel exhausted")
  | fuel + 1, .add, ts => do
      let (l, ts1) ← parseM fuel .mul ts
      parseM fuel (.addLoop l) ts1
  | fuel + 1, .addLoop acc, ts =>
      match ts with
      | .sym "+" :: ts1 => do
          let (r, ts2) ← parseM fuel .mul ts1
          parseM fuel (.addLoop (.binary "+" acc r)) ts2
      | .sym "-" :: ts1 => do
          let (r, ts2) ← parseM fuel .mul ts1
          parseM fuel (.addLoop (.binary "-" acc r)) ts2
      | _ => .ok (acc, ts)
  | fuel + 1, .mul, ts => do
      let (l, ts1) ← parseM fuel .expo ts
      parseM fuel (.mulLoop l) ts1
  | fuel + 1, .mulLoop acc, ts =>
      match ts with
      | .sym "*" :: ts1 => do
          let (r, ts2) ← parseM fuel .expo ts1
          parseM fuel (.mulLoop (.binary "*" acc r)) ts2
      | .sym "/" :: ts1 => do
          let (r, ts2) ← parseM fuel .expo ts1
          parseM fuel (.mulLoop (.binary "/" acc r)) ts2
      | .sym "%" :: ts1 => do
          let (r, ts2) ← parseM fuel .expo ts1
          parseM fuel (.mulLoop (.binary "%" acc r)) ts2
      | _ => .ok (acc, ts)
  | fuel + 1, .expo, ts =>
      match ts with
      | .sym "-" :: _ => do
          let (n, ts1) ← parseM fuel .unaryM ts
          match ts1 with
          | .sym "**" :: _ =>
              .error (.syntaxError "unary operand of exponentiation must be parenthesized")
          | _ => .ok (n, ts1)
      | _ => do
          let (u, ts1) ← parseM fuel .primary ts
          match ts1 with
          | .sym "**" :: ts2 => do
              let (r, ts3) ← parseM fuel .expo ts2
              .ok (.binary "**" u r, ts3)
          | _ => .ok (u, ts1)
  | fuel + 1, .unaryM, ts =>
      match ts with
      | .sym "-" :: ts1 => do
          let (a, ts2) ← parseM fuel .unaryM ts1
          .ok (.unary "-" false a, ts2)
      | _ => parseM fuel .primary ts
  | fuel + 1, .primary, ts =>
      match ts with
      | .num v :: ts1 => .ok (.lit (doubleRound v), ts1)
      | .id name :: .sym "(" :: ts1 => do
          let (a, ts2) ← parseM fuel .add ts1
          match ts2 with
          | .sym ")" :: ts3 => .ok (.call name a, ts3)
          | _ => .error (.syntaxError "expected closing parenthesis")
      | .id name :: ts1 => .ok (.ident name, ts1)
      | .sym "(" :: ts1 => do
          let (a, ts2) ← parseM fuel .add ts1
          match ts2 with
          | .sym ")" :: ts3 => .ok (a, ts3)
          | _ => .error (.syntaxError "expected closing parenthesis")
      | _ => .error (.syntaxError "unexpected token")

/-- `esprima.parseScript` followed by `body[0].expression`: the whole
input must be exactly one expression statement (an empty program makes
the `body[0].expression` access throw, which the caller's `try` turns
into a SyntaxError as well). -/
def parseScript (s : String) : Except EvalErr Node := do
  let ts ← tokenize (s.toList.length + 1) s.toList
  if ts.isEmpty then .error (.syntaxError "empty expression")
  else
    let (n, rest) ← parseM (4 * ts.length + 16) .add ts
    match rest with
    | [] => .ok n
    | _ => .error (.syntaxError "unexpected token after expression")

/-! ### Variable store, rendering, and `$`-substitution

The vorpal variant keeps `this.vars`, a plain object mapping names to
values.  The constructor seeds it with `pi: Math.PI`, `e: Math.E`,
`ans: 0` — all three native JavaScript numbers, not `Decimal`
instances.  The `var` command and the post-evaluation `ans` update
store `Decimal` values.  The model distinguishes the two cases with
`VarValue`. -/

/-- A value stored in `this.vars`: either a native JavaScript number
(as seeded by the constructor) or a decimal.js `Decimal` (as stored by
`var` assignments and `ans` updates).  For a native number we record
the rational denoted by its `Number.prototype.toString`
representation, which is all that substitution ever reads. -/
inductive VarValue where
  | native (q : ℚ)
  | decimal (d : Dec)
deriving DecidableEq

/-- Whether a stored value is a decimal.js `Decimal` instance. -/
def VarValue.isDecimal : VarValue → Bool
  | .native _ => false
  | .decimal _ => true

/-- Decimal digit characters of a natural number; fuelled so it
reduces definitionally. -/
def natDigitsAux : ℕ → ℕ → List Char → List Char
  | 0, _, acc => acc
  | fuel + 1, n, acc =>
      if n = 0 then acc
      else natDigitsAux fuel (n / 10) (Char.ofNat (48 + n % 10) :: acc)

/-- Decimal string of a natural number. -/
def natToString (n : ℕ) : String :=
  if n = 0 then "0" else String.mk (natDigitsAux (n + 1) n [])

/-- Least `k` (up to the fuel bound) with `d ∣ 10 ^ k`. -/
def findPow10 (d : ℕ) : ℕ → ℕ → Option ℕ
  | 0, _ => none
  | fuel + 1, k => if d ∣ 10 ^ k then some k else findPow10 d fuel (k + 1)

/-- Strip trailing `'0'` characters. -/
def trimTrailingZeros (l : List Char) : List Char :=
  (l.reverse.dropWhile (· = '0')).reverse

/-- Left-pad a digit list with `'0'` up to length `n`. -/
def padLeft (n : ℕ) (l : List Char) : List Char :=
  List.replicate (n - l.length) '0' ++ l

/-- Plain decimal-notation string of a rational with a terminating
decimal expansion: the `toString` of both a decimal.js value and a
native number whose value is that rational.  (decimal.js switches to
exponential notation only below `1e-7` or at and above `1e21`, outside
the range of every value rendered in this file.)  Every value the real
system stores has a terminating expansion — a `Decimal` is a scaled
decimal integer, and a native number renders through its shortest
round-trip decimal — so the non-terminating fallback `""` is
unreachable for faithfully modelled stores; it can only be hit through
this model's exact-rational divisions, which no theorem renders. -/
def ratToDecimalString (q : ℚ) : String :=
  let sign := if q < 0 then "-" else ""
  let n := q.num.natAbs
  let d := q.den
  match findPow10 d 121 0 with
  | none => ""
  | some k =>
      if k = 0 then sign ++ natToString (n / d)
      else
        let m := n * 10 ^ k / d
        let ds := padLeft (k + 1) (natToString m).toList
        let ip := ds.take (ds.length - k)
        let fp := trimTrailingZeros (ds.drop (ds.length - k))
        if fp.isEmpty then sign ++ String.mk ip
        else sign ++ String.mk ip ++ "." ++ String.mk fp

/-- `this.vars[varName].toString()`, the text substituted for a
variable reference. -/
def renderVar : VarValue → String
  | .native q => ratToDecimalString q
  | .decimal .nan => "NaN"
  | .decimal (.num q) => ratToDecimalString q

/-- A word character, `\w` of the substitution regular expression
`/\$(\w+)/g` (ASCII letters, digits, underscore). -/
def isWordChar (c : Char) : Bool := c.isAlphanum || c = '_'

/-- Lower-case a string (`String.prototype.toLowerCase` restricted to
the ASCII names that occur). -/
def lowerStr (s : String) : String := String.mk (s.toList.map Char.toLower)

/-- The `expression.replace(/\$(\w+)/g, ...)` pass of
`parseExpression` (`src/unnamed/part_000` lines 337–345): scan left to
right; at `'$'` followed by at least one word character, look the
lower-cased name up in `vars` and splice in `toString()` of its value
(the spliced text is not rescanned), or throw
`Undefined variable: <name>` (original spelling) if the name is
absent; a `'$'` not followed by a word character is copied verbatim.
Fuelled on the input length so it reduces definitionally; each step
consumes at least one character. -/
def substChars (vars : List (String × VarValue)) :
    ℕ → List Char → Except EvalErr (List Char)
  | 0, _ => .error (.syntaxError "substitution fuel exhausted")
  | _ + 1, [] => .ok []
  | fuel + 1, c :: cs =>
    if c = '$' then
      let name := cs.takeWhile isWordChar
      if name.isEmpty then do
        let out ← substChars vars fuel cs
        .ok (c :: out)
      else
        match vars.lookup (String.mk (name.map Char.toLower)) with
        | some v => do
            let out ← substChars vars fuel (cs.dropWhile isWordChar)
            .ok ((renderVar v).toList ++ out)
        | none => .error (.undefinedVariable (String.mk name))
    else do
      let out ← substChars vars fuel cs
      .ok (c :: out)

/-- The complete substitution pass on a string. -/
def substituteVariables (vars : List (String × VarValue)) (s : String) :
    Except EvalErr String := do
  let out ← substChars vars (s.toList.length + 1) s.toList
  .ok (String.mk out)

/-- Session state of the vorpal variant: the angle-mode string and the
variable store.  The store is an association list in which the
leftmost binding shadows later ones, modelling assignment to a
JavaScript object property. -/
structure SessionState where
  angleMode : String
  vars : List (String × VarValue)
deriving DecidableEq

/-- Property assignment `this.vars[key] = v`. -/
def insertVar (vars : List (String × VarValue)) (key : String) (v : VarValue) :
    List (String × VarValue) :=
  (key, v) :: vars

/-- The constructor's seed store (`src/unnamed/part_000` lines
326–330): `pi: Math.PI`, `e: Math.E`, `ans: 0`, each a native number.
The recorded rationals are the values denoted by `Math.PI.toString()`
and `Math.E.toString()`; the exact binary64 values extend beyond those
digits, but nothing in this file depends on the difference. -/
def initialVars : List (String × VarValue) :=
  [("pi", .native (3141592653589793 / 1000000000000000 : ℚ)),
   ("e", .native (2718281828459045 / 1000000000000000 : ℚ)),
   ("ans", .native 0)]

/-- A fresh session with the default configuration (`angleMode:
'deg'`). -/
def initialState : SessionState :=
  { angleMode := "deg", vars := initialVars }

/-- The `var <name> = <value>` command (`src/unnamed/part_000` lines
448–460): stores `new Decimal(args.value)` under the lower-cased name.
The argument here is the parsed numeric value of the value text
(invalid text makes the `Decimal` constructor throw before any
assignment happens). -/
def varCommand (st : SessionState) (name : String) (value : ℚ) : SessionState :=
  { st with vars := insertVar st.vars (lowerStr name) (.decimal (.num value)) }

/-- `parseExpression` of the vorpal variant (`src/unnamed/part_000`
lines 337–354): substitute variables, parse, and run `markUnaryMinus`
over `body[0].expression`. -/
def parseExpression (st : SessionState) (expression : String) :
    Except EvalErr Node := do
  let substituted ← substituteVariables st.vars expression
  let node ← parseScript substituted
  .ok (markUnaryMinus node)

/-- Parse-then-evaluate, the body of the `try` block shared by
`evaluateExpression` and `evaluateFromArgs`. -/
def runExpression (K : Kernel) (st : SessionState) (expression : String) :
    Except EvalErr Dec := do
  let node ← parseExpression st expression
  evaluateNode K st.angleMode node

/-- `evaluateExpression` / `evaluateFromArgs` of the vorpal variant
(`src/unnamed/part_000` lines 474–492 and 539–550): on success the
caller stores the result in `this.vars.ans` and prints it; on any
error the state is left untouched (the REPL prints the message and
continues; the one-shot path exits nonzero). -/
def evaluateExpression (K : Kernel) (st : SessionState) (expression : String) :
    Except EvalErr Dec × SessionState :=
  match runExpression K st expression with
  | .ok result =>
      (.ok result, { st with vars := insertVar st.vars "ans" (.decimal result) })
  | .error e => (.error e, st)

/-- Parse-then-evaluate for the `index.mjs` variant, which has no
variable substitution and no unary-minus tagging pass. -/
def evalStringIndex (K : Kernel) (mode : String) (expression : String) :
    Except EvalErr Dec := do
  let node ← parseScript expression
  evaluateNodeIndex K mode node

/-! ### Helper lemmas -/

/-- A successful `checkNaN` returns its input, which is not NaN. -/
theorem checkNaN_ok {name : String} {d v : Dec} (h : checkNaN name d = .ok v) :
    v = d ∧ v ≠ .nan := by
  unfold checkNaN at h
  by_cases hd : d = .nan
  · rw [if_pos hd] at h
    exact absurd h (by simp)
  · rw [if_neg hd] at h
    cases h
    exact ⟨rfl, hd⟩

/-- Inversion for a successful `Except` bind. -/
theorem exceptBind_ok {α β ε : Type} {x : Except ε α} {f : α → Except ε β} {v : β}
    (h : x >>= f = .ok v) : ∃ a, x = .ok a ∧ f a = .ok v := by
  cases x with
  | ok a => exact ⟨a, rfl, h⟩
  | error e =>
    simp only [Bind.bind, Except.bind] at h
    exact absurd h (by simp)

/-- Characterisation of a successful division entry: with a nonzero
finite right operand the quotient is returned. -/
theorem applyOperator_div_ok (K : Kernel) (a b : ℚ) (hb : b ≠ 0) :
    applyOperator K "/" (.num a) (some (.num b)) = .ok (.num (a / b)) := by
  simp only [applyOperator, OPERATORS, requireArg]
  have hz : Dec.isZero (.num b) = false := by simp [Dec.isZero, hb]
  simp only [Bind.bind, Except.bind, hz, Bool.false_eq_true, if_false, Dec.div, if_neg hb]

/-- The NaN-or-not invariant behind C8, proved by inspecting every
branch of the evaluator: each one passes its result through
`checkNaN`. -/
theorem evaluateNode_ok_not_nan (K : Kernel) (mode : String) :
    ∀ (n : Node) (v : Dec), evaluateNode K mode n = .ok v → v ≠ .nan := by
  intro n v h
  match n with
  | .lit q => exact (checkNaN_ok h).2
  | .ident name => exact absurd h (by simp [evaluateNode])
  | .binary op l r =>
    simp only [evaluateNode] at h
    obtain ⟨a, _, h⟩ := exceptBind_ok h
    obtain ⟨b, _, h⟩ := exceptBind_ok h
    obtain ⟨res, _, h⟩ := exceptBind_ok h
    exact (checkNaN_ok h).2
  | .unary op tagged arg =>
    simp only [evaluateNode] at h
    obtain ⟨a, _, h⟩ := exceptBind_ok h
    obtain ⟨res, _, h⟩ := exceptBind_ok h
    exact (checkNaN_ok h).2
  | .call f arg =>
    cases hF : FUNCTIONS K f with
    | none =>
      simp only [evaluateNode, hF] at h
      exact absurd h (by simp)
    | some fn =>
      simp only [evaluateNode, hF] at h
      obtain ⟨a, _, h⟩ := exceptBind_ok h
      exact (checkNaN_ok h).2

/-! ### C7 — operator precedence and associativity -/

/-- C7: Operator precedence and associativity follow standard
mathematics: `"2 + 3 * 4"` parses with multiplication binding tighter
than addition and evaluates to 14, and `"2 ** 3 ** 2"` parses
right-associatively (exponentiation binding tightest) and evaluates to
512. -/
theorem c7_precedence :
    parseScript "2 + 3 * 4"
        = .ok (.binary "+" (.lit 2) (.binary "*" (.lit 3) (.lit 4)))
    ∧ runExpression stdKernel initialState "2 + 3 * 4" = .ok (.num 14)
    ∧ parseScript "2 ** 3 ** 2"
        = .ok (.binary "**" (.lit 2) (.binary "**" (.lit 3) (.lit 2)))
    ∧ runExpression stdKernel initialState "2 ** 3 ** 2" = .ok (.num 512) := by
  refine ⟨?_, ?_, ?_, ?_⟩ <;> with_unfolding_all rfl

/-! ### C3 — division and modulo by zero -/

/-- C3: with a nonzero right operand `/` returns the quotient; with a
zero right operand `/` fails with the division-by-zero error and `%`
with the modulo-by-zero error; the division-by-zero error arises
exactly from the zero test on the right operand (so it is decided
before the arithmetic, never inferred from a NaN or Infinity result);
and the full pipeline reproduces all three behaviours. -/
theorem c3_division_by_zero :
    (∀ (K : Kernel) (a b : ℚ), b ≠ 0 →
        applyOperator K "/" (.num a) (some (.num b)) = .ok (.num (a / b)))
    ∧ (∀ (K : Kernel) (a : Dec),
        applyOperator K "/" a (some (.num 0)) = .error .divisionByZero)
    ∧ (∀ (K : Kernel) (a : Dec),
        applyOperator K "%" a (some (.num 0)) = .error .moduloByZero)
    ∧ (∀ (K : Kernel) (a b : ℚ),
        applyOperator K "/" (.num a) (some (.num b)) = .error .divisionByZero ↔ b = 0)
    ∧ runExpression stdKernel initialState "7 / 2" = .ok (.num (7 / 2))
    ∧ runExpression stdKernel initialState "1 / 0" = .error .divisionByZero
    ∧ runExpression stdKernel initialState "1 % 0" = .error .moduloByZero := by
  refine ⟨fun K a b hb => applyOperator_div_ok K a b hb,
    fun K a => by with_unfolding_all rfl,
    fun K a => by with_unfolding_all rfl,
    fun K a b => ?_,
    by with_unfolding_all rfl, by with_unfolding_all rfl, by with_unfolding_all rfl⟩
  constructor
  · intro h
    by_contra hb
    rw [applyOperator_div_ok K a b hb] at h
    exact absurd h (by simp)
  · intro hb
    subst hb
    with_unfolding_all rfl

/-- C3 witness: the nonzero-divisor conjunct at `7 / 2`. -/
theorem c3_division_by_zero_witness :
    applyOperator stdKernel "/" (.num 7) (some (.num 2)) = .ok (.num (7 / 2)) :=
  c3_division_by_zero.1 stdKernel 7 2 (by norm_num)

/-! ### C10 — the tagging pass misses nested unary minus -/

/-- C10: `markUnaryMinus` recurses only through the children of
binary nodes: a call node is returned untouched (its argument is not
visited) and a tagged unary node's argument is not visited either; an
untagged unary-minus node is evaluated by applying the two-argument
subtraction entry to a single operand, which raises the
invalid-argument error instead of returning the negated value — as
both `"sin(-1)"` and `"-(-5)"` do end to end. -/
theorem c10_untagged_unary :
    (∀ (f : String) (a : Node), markUnaryMinus (.call f a) = .call f a)
    ∧ (∀ (t : Bool) (a : Node), markUnaryMinus (.unary "-" t a) = .unary "-" true a)
    ∧ (∀ (K : Kernel) (mode : String) (arg : Node) (v : Dec),
        evaluateNode K mode arg = .ok v →
        evaluateNode K mode (.unary "-" false arg) = .error .invalidArgument)
    ∧ runExpression stdKernel initialState "sin(-1)" = .error .invalidArgument
    ∧ runExpression stdKernel initialState "-(-5)" = .error .invalidArgument := by
  refine ⟨fun f a => rfl, fun t a => rfl, ?_,
    by with_unfolding_all rfl, by with_unfolding_all rfl⟩
  intro K mode arg v h
  simp only [evaluateNode, h]
  rfl

/-- C10 witness: the untagged-unary conjunct at the literal 1. -/
theorem c10_untagged_unary_witness :
    evaluateNode stdKernel "deg" (.unary "-" false (.lit 1)) = .error .invalidArgument :=
  c10_untagged_unary.2.2.1 stdKernel "deg" (.lit 1) (.num 1) (by with_unfolding_all rfl)

/-! ### C1 — unary-minus disambiguation -/

/-- C1 counterexample: in the `index.mjs` variant the later unary
`'-'` table entry overwrites binary subtraction, so evaluating
`"5 - -3"` yields −5, not 8 as the claim states. -/
theorem c1_unary_minus_counterexample :
    evalStringIndex stdKernel "deg" "5 - -3" = .ok (.num (-5))
    ∧ evalStringIndex stdKernel "deg" "5 - -3" ≠ .ok (.num 8) := by
  have h : evalStringIndex stdKernel "deg" "5 - -3" = .ok (.num (-5)) := by
    with_unfolding_all rfl
  refine ⟨h, ?_⟩
  intro h8
  rw [h] at h8
  have hq : (-5 : ℚ) = 8 := Dec.num.inj (Except.ok.inj h8)
  norm_num at hq

/-- C1 (amended): in the variant with the tagging pass, `"5 - -3"`
evaluates to 8 and `"-5"` to −5; the evaluator applies arithmetic
negation to every unary-minus node that carries the tag and binary
subtraction to both operands of every binary `-` node (untagged
unary-minus nodes instead error, see C10).  In the `index.mjs`
variant the duplicate `'-'` key leaves only the negation entry, so a
binary `-` node negates its left operand and ignores the right one. -/
theorem c1_unary_minus_amended :
    (runExpression stdKernel initialState "5 - -3" = .ok (.num 8)
      ∧ runExpression stdKernel initialState "-5" = .ok (.num (-5)))
    ∧ (∀ (K : Kernel) (mode : String) (arg : Node) (q : ℚ),
        evaluateNode K mode arg = .ok (.num q) →
        evaluateNode K mode (.unary "-" true arg) = .ok (.num (-q)))
    ∧ (∀ (K : Kernel) (mode : String) (l r : Node) (a b : ℚ),
        evaluateNode K mode l = .ok (.num a) →
        evaluateNode K mode r = .ok (.num b) →
        evaluateNode K mode (.binary "-" l r) = .ok (.num (a - b)))
    ∧ (∀ (K : Kernel) (mode : String) (l r : Node) (a b : ℚ),
        evaluateNodeIndex K mode l = .ok (.num a) →
        evaluateNodeIndex K mode r = .ok (.num b) →
        evaluateNodeIndex K mode (.binary "-" l r) = .ok (.num (-a))) := by
  refine ⟨⟨by with_unfolding_all rfl, by with_unfolding_all rfl⟩, ?_, ?_, ?_⟩
  · intro K mode arg q h
    simp only [evaluateNode, h]
    rfl
  · intro K mode l r a b hl hr
    simp only [evaluateNode, hl, hr]
    rfl
  · intro K mode l r a b hl hr
    simp only [evaluateNodeIndex, hl, hr]
    rfl

/-- C1 witness: the general conjuncts at concrete literals. -/
theorem c1_unary_minus_witness :
    evaluateNode stdKernel "deg" (.unary "-" true (.lit 3)) = .ok (.num (-3))
    ∧ evaluateNode stdKernel "deg" (.binary "-" (.lit 5) (.lit 3)) = .ok (.num (5 - 3))
    ∧ evaluateNodeIndex stdKernel "deg" (.binary "-" (.lit 5) (.lit 3)) = .ok (.num (-5)) :=
  ⟨c1_unary_minus_amended.2.1 stdKernel "deg" (.lit 3) 3 (by with_unfolding_all rfl),
   c1_unary_minus_amended.2.2.1 stdKernel "deg" (.lit 5) (.lit 3) 5 3
     (by with_unfolding_all rfl) (by with_unfolding_all rfl),
   c1_unary_minus_amended.2.2.2 stdKernel "deg" (.lit 5) (.lit 3) 5 3
     (by with_unfolding_all rfl) (by with_unfolding_all rfl)⟩

/-! ### C2 — literal precision -/

/-- The fuelled logarithm is bounded by the bit length. -/
theorem log2Fuel_le : ∀ (f n k : ℕ), n < 2 ^ (k + 1) → log2Fuel f n ≤ k := by
  intro f
  induction f with
  | zero => intro n k _; exact Nat.zero_le k
  | succ f ih =>
    intro n k h
    unfold log2Fuel
    by_cases hn : n ≤ 1
    · rw [if_pos hn]; exact Nat.zero_le k
    · rw [if_neg hn]
      match k with
      | 0 =>
        have h2 : n < 2 := by simpa using h
        omega
      | k + 1 =>
        have h2 : n / 2 < 2 ^ (k + 1) := by
          have h3 : n < 2 ^ (k + 1) * 2 := by rw [← pow_succ]; exact h
          exact Nat.div_lt_of_lt_mul (by omega)
        exact Nat.add_le_add_right (ih (n / 2) k h2) 1

/-- A natural below `2 ^ 53` has `floorLog2` at most 52. -/
theorem floorLog2_natCast_le (n : ℕ) (h : n < 2 ^ 53) : floorLog2 (n : ℚ) ≤ 52 := by
  simp only [floorLog2, Rat.num_natCast, Rat.den_natCast, Int.natAbs_ofNat]
  have h0 : natLog2 1 = 0 := rfl
  rw [h0]
  have h1 : natLog2 n ≤ 52 := log2Fuel_le n n 52 h
  split <;> omega

/-- Rounding a natural number to the nearest integer is the identity. -/
theorem roundHalfEven_natCast (N : ℕ) : roundHalfEven (N : ℚ) = N := by
  simp only [roundHalfEven, Int.floor_natCast]
  have h : ((N : ℚ) - ((N : ℤ) : ℚ)) = 0 := by push_cast; ring
  rw [h]
  norm_num

/-- `pow2Q` at opposite exponents cancels. -/
theorem pow2Q_mul_inv (e : ℤ) : pow2Q (-e) * pow2Q e = 1 := by
  unfold pow2Q
  have hp : ∀ m : ℕ, ((2 ^ m : ℕ) : ℚ) ≠ 0 := by
    intro m
    exact_mod_cast pow_ne_zero m (two_ne_zero)
  rcases lt_trichotomy e 0 with he | he | he
  · rw [if_pos (by omega : (0:ℤ) ≤ -e), if_neg (by omega : ¬ (0:ℤ) ≤ e)]
    field_simp
  · subst he
    norm_num
  · rw [if_neg (by omega : ¬ (0:ℤ) ≤ -e), if_pos (by omega : (0:ℤ) ≤ e), neg_neg]
    field_simp

/-- Binary64 rounding is the identity on naturals below `2 ^ 53` (53
significant bits suffice). -/
theorem doubleRoundPos_natCast (n : ℕ) (h : n < 2 ^ 53) :
    doubleRoundPos (n : ℚ) = n := by
  simp only [doubleRoundPos]
  set e : ℤ := floorLog2 (n : ℚ) - 52 with hedef
  have hk : floorLog2 (n : ℚ) ≤ 52 := floorLog2_natCast_le n h
  have he : 0 ≤ -e := by omega
  have h1 : pow2Q (-e) = ((2 ^ (-e).toNat : ℕ) : ℚ) := by unfold pow2Q; rw [if_pos he]
  have h2 : (n : ℚ) * pow2Q (-e) = ((n * 2 ^ (-e).toNat : ℕ) : ℚ) := by
    rw [h1]; push_cast; ring
  rw [h2, roundHalfEven_natCast]
  have h4 : (((n * 2 ^ (-e).toNat : ℕ) : ℤ) : ℚ)
      = (n : ℚ) * ((2 ^ (-e).toNat : ℕ) : ℚ) := by push_cast; ring
  rw [h4, ← h1, mul_assoc, pow2Q_mul_inv, mul_one]

/-- `doubleRound` is the identity on naturals below `2 ^ 53`. -/
theorem doubleRound_natCast (n : ℕ) (h : n < 2 ^ 53) : doubleRound (n : ℚ) = n := by
  unfold doubleRound
  by_cases h0 : (n : ℚ) = 0
  · rw [if_pos h0, h0]
  · rw [if_neg h0, if_neg (not_lt.mpr (Nat.cast_nonneg n))]
    exact doubleRoundPos_natCast n h

/-- C2 counterexample: the literal `9007199254740993` (2^53 + 1) does
not evaluate to itself — esprima parses it to a native double first,
which rounds it to `9007199254740992`, so the claimed absence of
intermediate native-float rounding fails. -/
theorem c2_literal_precision_counterexample :
    runExpression stdKernel initialState "9007199254740993" = .ok (.num 9007199254740992)
    ∧ runExpression stdKernel initialState "9007199254740993" ≠ .ok (.num 9007199254740993) := by
  have h : runExpression stdKernel initialState "9007199254740993"
      = .ok (.num 9007199254740992) := by with_unfolding_all rfl
  refine ⟨h, ?_⟩
  intro h2
  rw [h] at h2
  have hq : (9007199254740992 : ℚ) = 9007199254740993 := Dec.num.inj (Except.ok.inj h2)
  norm_num at hq

/-- C2 (amended): a numeric literal is parsed to a native double
before the Decimal is constructed; for every integer literal whose
value is below `2 ^ 53` the rounding is the identity, so the literal
alone evaluates to exactly its value — larger (or more precise)
literals are rounded to the nearest double first. -/
theorem c2_literal_precision_amended :
    ∀ n : ℕ, n < 2 ^ 53 →
      doubleRound (n : ℚ) = (n : ℚ)
      ∧ ∀ (K : Kernel) (mode : String),
          evaluateNode K mode (.lit (doubleRound (n : ℚ))) = .ok (.num (n : ℚ)) := by
  intro n h
  have hd := doubleRound_natCast n h
  refine ⟨hd, fun K mode => ?_⟩
  rw [hd]
  rfl

/-- C2 witness: the amended claim at the literal 5. -/
theorem c2_literal_precision_witness :
    doubleRound ((5 : ℕ) : ℚ) = ((5 : ℕ) : ℚ)
    ∧ evaluateNode stdKernel "deg" (.lit (doubleRound ((5 : ℕ) : ℚ)))
        = .ok (.num ((5 : ℕ) : ℚ)) :=
  ⟨(c2_literal_precision_amended 5 (by norm_num)).1,
   (c2_literal_precision_amended 5 (by norm_num)).2 stdKernel "deg"⟩

/-! ### C4 — angle-mode conversion -/

/-- C4: `toDeg` is a pure function of value and mode: in degree mode
it returns the value multiplied by the library π and divided by 180 in
Decimal arithmetic, in radian mode it returns the value unchanged; in
the function table it is applied to the argument of `sin`, `cos` and
`tan` only, while `abs`, `log`, `exp` and `sqrt` receive the raw
argument unchanged in either mode. -/
theorem c4_angle_conversion :
    (∀ q : ℚ, toDeg (.num q) "deg" = .num (decimalPi * q / 180))
    ∧ (∀ d : Dec, toDeg d "rad" = d)
    ∧ (∀ K : Kernel,
        FUNCTIONS K "sin" = some (fun a mode => K.sin (toDeg a mode))
        ∧ FUNCTIONS K "cos" = some (fun a mode => K.cos (toDeg a mode))
        ∧ FUNCTIONS K "tan" = some (fun a mode => K.tan (toDeg a mode)))
    ∧ (∀ (K : Kernel) (a : Dec) (mode : String),
        Option.map (fun fn => fn a mode) (FUNCTIONS K "abs") = some (K.abs a)
        ∧ Option.map (fun fn => fn a mode) (FUNCTIONS K "log") = some (K.log a)
        ∧ Option.map (fun fn => fn a mode) (FUNCTIONS K "exp") = some (K.exp a)
        ∧ Option.map (fun fn => fn a mode) (FUNCTIONS K "sqrt") = some (K.sqrt a)) := by
  refine ⟨fun q => by with_unfolding_all rfl, fun d => rfl,
    fun K => ⟨rfl, rfl, rfl⟩, fun K a mode => ⟨rfl, rfl, rfl, rfl⟩⟩

/-! ### C5 — variable substitution -/

/-- C5: the `$name` substitution is textual and happens before
parsing: a reference whose lower-cased name is absent from the mapping
makes the whole evaluation fail with the undefined-variable error
carrying the original spelling (and the error is never converted into
a parse error — no parse is attempted); a reference whose name is
present is replaced by the rendered value; lookups lower-case the
referenced name, so `"$X"` finds a variable stored as `x`; and the
variable round trip `var x = 5` then `"$x * 2"` yields 10. -/
theorem c5_variable_substitution :
    (∀ (vars : List (String × VarValue)) (name : List Char) (fuel : ℕ),
        name ≠ [] → (∀ c ∈ name, isWordChar c) →
        vars.lookup (String.mk (name.map Char.toLower)) = none →
        substChars vars (fuel + 1) ('$' :: name)
          = .error (.undefinedVariable (String.mk name)))
    ∧ (∀ (vars : List (String × VarValue)) (name : List Char) (v : VarValue) (fuel : ℕ),
        name ≠ [] → (∀ c ∈ name, isWordChar c) →
        vars.lookup (String.mk (name.map Char.toLower)) = some v →
        substChars vars (fuel + 2) ('$' :: name) = .ok (renderVar v).toList)
    ∧ (∀ (st : SessionState) (s : String) (name : String),
        substituteVariables st.vars s = .error (.undefinedVariable name) →
        runExpression stdKernel st s = .error (.undefinedVariable name))
    ∧ runExpression stdKernel (varCommand initialState "x" 5) "$x * 2" = .ok (.num 10)
    ∧ runExpression stdKernel (varCommand initialState "x" 5) "$X * 2" = .ok (.num 10)
    ∧ runExpression stdKernel initialState "$q +" = .error (.undefinedVariable "q") := by
  refine ⟨?_, ?_, ?_,
    by with_unfolding_all rfl, by with_unfolding_all rfl, by with_unfolding_all rfl⟩
  · intro vars name fuel hne hw hlook
    have ht : name.takeWhile isWordChar = name :=
      List.takeWhile_eq_self_iff.mpr (fun c hc => hw c hc)
    have hie : name.isEmpty = false := by
      cases name with
      | nil => exact absurd rfl hne
      | cons a l => rfl
    simp only [substChars, ht, hie, hlook]
    rfl
  · intro vars name v fuel hne hw hlook
    have ht : name.takeWhile isWordChar = name :=
      List.takeWhile_eq_self_iff.mpr (fun c hc => hw c hc)
    have hd : name.dropWhile isWordChar = [] :=
      List.dropWhile_eq_nil_iff.mpr (fun c hc => hw c hc)
    have hie : name.isEmpty = false := by
      cases name with
      | nil => exact absurd rfl hne
      | cons a l => rfl
    simp only [substChars, ht, hie, hlook, hd]
    show Except.ok ((renderVar v).toList ++ ([] : List Char)) = .ok (renderVar v).toList
    rw [List.append_nil]
  · intro st s name h
    simp only [runExpression, parseExpression]
    rw [h]
    rfl

/-- C5 witness: the undefined-name conjunct at the reference `$q`
against the fresh session store. -/
theorem c5_variable_substitution_witness :
    substChars initialVars 1 ('$' :: ['q'])
      = .error (.undefinedVariable (String.mk ['q'])) :=
  c5_variable_substitution.1 initialVars ['q'] 0 (by simp) (by decide)
    (by with_unfolding_all rfl)

/-! ### C6 — the `ans` variable -/

/-- C6: after the successful evaluation of `"2 + 2"` the caller stores
the result 4 under `"ans"`, so `"$ans * 10"` then yields 40; in
general a successful evaluation makes exactly that `ans` assignment at
the call site (the evaluator itself takes no state), and a failed
evaluation returns the state unchanged. -/
theorem c6_ans_update :
    ((evaluateExpression stdKernel initialState "2 + 2").1 = .ok (.num 4)
      ∧ (evaluateExpression stdKernel initialState "2 + 2").2.vars.lookup "ans"
          = some (.decimal (.num 4))
      ∧ (evaluateExpression stdKernel
          (evaluateExpression stdKernel initialState "2 + 2").2 "$ans * 10").1
          = .ok (.num 40))
    ∧ (∀ (K : Kernel) (st : SessionState) (s : String) (r : Dec),
        runExpression K st s = .ok r →
        evaluateExpression K st s
          = (.ok r, { st with vars := insertVar st.vars "ans" (.decimal r) }))
    ∧ (∀ (K : Kernel) (st : SessionState) (s : String) (e : EvalErr),
        runExpression K st s = .error e →
        evaluateExpression K st s = (.error e, st)) := by
  refine ⟨⟨by with_unfolding_all rfl, by with_unfolding_all rfl,
    by with_unfolding_all rfl⟩, ?_, ?_⟩
  · intro K st s r h
    simp only [evaluateExpression, h]
  · intro K st s e h
    simp only [evaluateExpression, h]

/-- C6 witness: the failure conjunct at the failing input `"1 / 0"`,
whose evaluation error leaves the session state untouched. -/
theorem c6_ans_update_witness :
    evaluateExpression stdKernel initialState "1 / 0"
      = (.error .divisionByZero, initialState) :=
  c6_ans_update.2.2 stdKernel initialState "1 / 0" .divisionByZero
    (by with_unfolding_all rfl)

/-! ### C8 — NaN detection -/

/-- C8 counterexample: `"sqrt(0 - 1)"` produces NaN inside a call
expression, and the resulting error names the operator `"unknown"`
(`node.operator` is undefined on a CallExpression), not the function
`sqrt` that produced the NaN — so the error does not identify the
function, contrary to the claim. -/
theorem c8_nan_counterexample :
    runExpression stdKernel initialState "sqrt(0 - 1)" = .error (.numeric "unknown")
    ∧ EvalErr.numeric "unknown" ≠ EvalErr.numeric "sqrt" := by
  refine ⟨by with_unfolding_all rfl, ?_⟩
  intro h
  have hs : "unknown" = "sqrt" := EvalErr.numeric.inj h
  exact absurd hs (by decide)

/-- C8 (amended): a NaN result never escapes — every successful
evaluation returns a non-NaN value; when an operator application on
successfully evaluated operands yields NaN, evaluation fails with the
numeric error naming that operator; when a table function yields NaN
on a successfully evaluated argument, evaluation fails with the
numeric error naming `"unknown"` (not the function). -/
theorem c8_nan_amended :
    (∀ (K : Kernel) (mode : String) (n : Node) (v : Dec),
        evaluateNode K mode n = .ok v → v ≠ .nan)
    ∧ (∀ (K : Kernel) (mode op : String) (l r : Node) (a b : Dec),
        evaluateNode K mode l = .ok a → evaluateNode K mode r = .ok b →
        applyOperator K op a (some b) = .ok .nan →
        evaluateNode K mode (.binary op l r) = .error (.numeric op))
    ∧ (∀ (K : Kernel) (mode f : String) (arg : Node) (a : Dec) (fn : Dec → String → Dec),
        FUNCTIONS K f = some fn →
        evaluateNode K mode arg = .ok a →
        fn a mode = .nan →
        evaluateNode K mode (.call f arg) = .error (.numeric "unknown")) := by
  refine ⟨fun K mode n v h => evaluateNode_ok_not_nan K mode n v h, ?_, ?_⟩
  · intro K mode op l r a b hl hr hop
    have hstep : evaluateNode K mode (.binary op l r)
        = (do
            let result ← applyOperator K op a (some b)
            checkNaN op result) := by
      simp only [evaluateNode, hl, hr]
      rfl
    rw [hstep, hop]
    rfl
  · intro K mode f arg a fn hF harg hfn
    have hstep : evaluateNode K mode (.call f arg)
        = checkNaN "unknown" (fn a mode) := by
      simp only [evaluateNode, hF, harg]
      rfl
    rw [hstep, hfn]
    rfl

/-- C8 witness: the never-NaN conjunct at the literal 3. -/
theorem c8_nan_amended_witness :
    Dec.num 3 ≠ Dec.nan :=
  c8_nan_amended.1 stdKernel "deg" (.lit 3) (.num 3) (by with_unfolding_all rfl)

/-! ### C9 — the variable store -/

/-- C9 counterexample: at session creation the seeded constants are
native JavaScript numbers, not Decimal instances — `pi` is stored as
the native `Math.PI` — so the claim that every stored value is an
arbitrary-precision Numeric Value fails at the pre-seeded store. -/
theorem c9_store_counterexample :
    initialState.vars.lookup "pi"
      = some (.native (3141592653589793 / 1000000000000000))
    ∧ (VarValue.native (3141592653589793 / 1000000000000000)).isDecimal = false := by
  exact ⟨by with_unfolding_all rfl, rfl⟩

/-- C9 (amended): every value stored by a `var` assignment or by the
post-evaluation `ans` update is a Decimal keyed by a lower-case name;
the constructor's seeds `pi`, `e`, `ans` also use lower-case keys but
hold native numbers, not Decimals. -/
theorem c9_store_amended :
    (∀ (st : SessionState) (name : String) (q : ℚ),
        (varCommand st name q).vars.lookup (lowerStr name) = some (.decimal (.num q)))
    ∧ (∀ (K : Kernel) (st : SessionState) (s : String) (r : Dec),
        runExpression K st s = .ok r →
        (evaluateExpression K st s).2.vars.lookup "ans" = some (.decimal r))
    ∧ initialVars.map Prod.fst = ["pi", "e", "ans"]
    ∧ (∀ p ∈ initialVars, lowerStr p.1 = p.1)
    ∧ (∀ p ∈ initialVars, p.2.isDecimal = false) := by
  refine ⟨?_, ?_, rfl, ?_, ?_⟩
  · intro st name q
    simp [varCommand, insertVar, List.lookup]
  · intro K st s r h
    simp only [evaluateExpression, h]
    simp [insertVar, List.lookup]
  · intro p hp
    simp only [initialVars, List.mem_cons, List.not_mem_nil, or_false] at hp
    rcases hp with h | h | h <;> subst h <;> with_unfolding_all rfl
  · intro p hp
    simp only [initialVars, List.mem_cons, List.not_mem_nil, or_false] at hp
    rcases hp with h | h | h <;> subst h <;> rfl

/-- C9 witness: the `ans`-update conjunct at `"2 + 2"`. -/
theorem c9_store_amended_witness :
    (evaluateExpression stdKernel initialState "2 + 2").2.vars.lookup "ans"
      = some (.decimal (.num 4)) :=
  c9_store_amended.2.1 stdKernel initialState "2 + 2" (.num 4)
    (by with_unfolding_all rfl)
